import Mathlib

/-!
Shallow embedding of `src/app.py` (Flask Azure provisioning assistant).

The Python program extracts `{resource_type, name, location}` from a text
block, dispatches on substring tests over the lower-cased extracted kind,
and runs per-kind provisioning workflows against the Azure management API.
Remote behaviour (name-availability answers, outcomes of the long-running
create operations) is abstracted into an `Env` record; every remote call a
workflow issues is recorded in an ordered trace of `RemoteCall` values.
-/

/-- List of characters of a string literal (used for all embedded text). -/
def chars (s : String) : List Char := s.data

/-- ASCII apostrophe, written by code point. -/
def aposC : Char := Char.ofNat 39

/-- Python f-string fragment that surrounds a value with apostrophes. -/
def quoted (s : List Char) : List Char := aposC :: (s ++ [aposC])

/-- Characters treated as whitespace by Python `str.strip()`. -/
def isPySpace (c : Char) : Bool :=
  c == Char.ofNat 32 || c == Char.ofNat 9 || c == Char.ofNat 10 ||
  c == Char.ofNat 13 || c == Char.ofNat 11 || c == Char.ofNat 12

/-- Python `str.strip()`: drop leading and trailing whitespace. -/
def pyStrip (l : List Char) : List Char :=
  ((l.dropWhile isPySpace).reverse.dropWhile isPySpace).reverse

/-- Per-character ASCII lower-casing, as Python `str.lower()` acts on the
ASCII range (the only range the program relies on). -/
def charLower (c : Char) : Char :=
  if 65 ≤ c.toNat ∧ c.toNat ≤ 90 then Char.ofNat (c.toNat + 32) else c

/-- Python `str.lower()` over the embedded character lists. -/
def pyLower (l : List Char) : List Char := l.map charLower

/-- Remainder of `l` after the first occurrence of `sep`; `none` when `sep`
does not occur (the case where Python `split(sep)[1]` raises IndexError). -/
def findSub (sep : List Char) : List Char → Option (List Char)
  | [] => if sep.isEmpty then some [] else none
  | c :: cs =>
    if sep.isPrefixOf (c :: cs) then some (List.drop sep.length (c :: cs))
    else findSub sep cs

/-- Python `l.split(sep)[0]`: the part of `l` before the first occurrence of
`sep` (all of `l` when `sep` does not occur). -/
def beforeSub (sep : List Char) : List Char → List Char
  | [] => []
  | c :: cs =>
    if sep.isPrefixOf (c :: cs) then [] else c :: beforeSub sep cs

/-- Python `l.split(sep)[1]`: the part between the first and second
occurrences of `sep`; `none` models the IndexError when `sep` is absent. -/
def pyPart1 (sep l : List Char) : Option (List Char) :=
  (findSub sep l).map (fun r => beforeSub sep r)

/-- Python substring test `needle in hay`. -/
def listContains (needle : List Char) : List Char → Bool
  | [] => needle.isEmpty
  | c :: cs => needle.isPrefixOf (c :: cs) || listContains needle cs

/-- One remote Azure management call, as issued by the program.
`checkAvail` is the storage name-availability query (read-only); the
remaining constructors are the mutating create/update submissions, each
carrying the resource-group name it targets. -/
inductive RemoteCall where
  | checkAvail (accountName : List Char)
  | rgCreate (rgName location : List Char)
  | storageCreate (rgName accountName location : List Char)
  | planCreate (rgName planName location tier : List Char)
  | siteCreate (rgName siteName location : List Char)
  | deployCreate (rgName deploymentName location : List Char)
deriving DecidableEq

/-- A call mutates remote infrastructure; only the availability check does
not. -/
def RemoteCall.isMutating : RemoteCall → Bool
  | .checkAvail _ => false
  | _ => true

/-- Resource group targeted by a call (`none` for the availability check,
which names no resource group). -/
def RemoteCall.rgTarget : RemoteCall → Option (List Char)
  | .checkAvail _ => none
  | .rgCreate g _ => some g
  | .storageCreate g _ _ => some g
  | .planCreate g _ _ _ => some g
  | .siteCreate g _ _ => some g
  | .deployCreate g _ _ => some g

/-- Abstract remote environment: the availability answer and the outcome of
each long-running operation (success, or the text of the raised Azure
exception). The Python functions observe the remote system only through
these. -/
structure Env where
  nameAvailable : List Char → Bool
  rgCreateRes : List Char → List Char → Except (List Char) Unit
  storageCreateRes : List Char → List Char → List Char → Except (List Char) Unit
  planCreateRes : List Char → List Char → List Char → List Char → Except (List Char) Unit
  siteCreateRes : List Char → List Char → List Char → Except (List Char) Unit
  deployRes : List Char → List Char → List Char → Except (List Char) Unit

/-- Result of one provisioning function: a returned message string, or an
uncaught Python exception (which the route handler later stringifies). -/
inductive Outcome where
  | ret (msg : List Char)
  | exn (msg : List Char)
deriving DecidableEq

/-- Embedding of `create_resource_group` (app.py lines 23-25): one
unconditional `create_or_update`, no try/except, success message. -/
def create_resource_group (env : Env) (name location : List Char) :
    Outcome × List RemoteCall :=
  match env.rgCreateRes name location with
  | .ok _ =>
    (.ret (chars ("✅ Resource group ") ++ quoted name ++
           chars (" created in ") ++ quoted location ++ chars (".")),
     [.rgCreate name location])
  | .error e => (.exn e, [.rgCreate name location])

/-- Embedding of `create_storage_account` (app.py lines 31-51): availability
check, fail-fast message when the name is taken, otherwise resource-group
create (via `create_resource_group_resource_type`, which returns `name` as
the group name) then the storage `begin_create` polled to completion.
Neither remote call sits in a try/except, so an error escapes as an
exception. -/
def create_storage_account (env : Env) (name location : List Char) :
    Outcome × List RemoteCall :=
  if env.nameAvailable name then
    match env.rgCreateRes name location with
    | .error e => (.exn e, [.checkAvail name, .rgCreate name location])
    | .ok _ =>
      match env.storageCreateRes name name location with
      | .error e =>
        (.exn e,
         [.checkAvail name, .rgCreate name location,
          .storageCreate name name location])
      | .ok _ =>
        (.ret (chars ("✅ Storage account ") ++ quoted name ++
               chars (" created in ") ++ quoted location ++ chars (".")),
         [.checkAvail name, .rgCreate name location,
          .storageCreate name name location])
  else
    (.ret (chars ("❌ Storage account name ") ++ quoted name ++
           chars (" is not available.")),
     [.checkAvail name])

/-- Embedding of `create_web_app` (app.py lines 126-179): resource-group
create (outside any try/except), then the App Service Plan and the Web App
submissions, each polled and each wrapped in its own try/except that turns
failure into a returned error message. -/
def create_web_app (env : Env) (name location : List Char) :
    Outcome × List RemoteCall :=
  match env.rgCreateRes name location with
  | .error e => (.exn e, [.rgCreate name location])
  | .ok _ =>
    match env.planCreateRes name (name ++ chars ("-plan")) location (chars ("Basic")) with
    | .error e =>
      (.ret (chars ("❌ Failed to create App Service Plan: ") ++ e),
       [.rgCreate name location,
        .planCreate name (name ++ chars ("-plan")) location (chars ("Basic"))])
    | .ok _ =>
      match env.siteCreateRes name (name ++ chars ("-web")) location with
      | .error e =>
        (.ret (chars ("❌ Failed to create Web App: ") ++ e),
         [.rgCreate name location,
          .planCreate name (name ++ chars ("-plan")) location (chars ("Basic")),
          .siteCreate name (name ++ chars ("-web")) location])
      | .ok _ =>
        (.ret (chars ("✅ Web App ") ++ quoted (name ++ chars ("-web")) ++
               chars (" successfully created in ") ++ quoted location ++ chars (".")),
         [.rgCreate name location,
          .planCreate name (name ++ chars ("-plan")) location (chars ("Basic")),
          .siteCreate name (name ++ chars ("-web")) location])

/-- Embedding of `create_function_app` (app.py lines 182-252), kept faithful
to the source including its inverted availability test: the storage
`begin_create` runs only when `check_name_availability` reports the name NOT
available (`if not availability.name_available:` guards the creation), and
is skipped entirely when the name is available. Then the consumption plan
and the function app are submitted, each step in its own try/except. -/
def create_function_app (env : Env) (name location : List Char) :
    Outcome × List RemoteCall :=
  let step1 : Except (List Char) Unit × List RemoteCall :=
    if env.nameAvailable name then (.ok (), [.checkAvail name])
    else
      ((env.storageCreateRes name name location).map (fun _ => ()),
       [.checkAvail name, .storageCreate name name location])
  match step1 with
  | (.error e, tr) => (.ret (chars ("❌ Failed to create storage: ") ++ e), tr)
  | (.ok _, tr) =>
    match env.planCreateRes name (name ++ chars ("-plan")) location (chars ("Dynamic")) with
    | .error e =>
      (.ret (chars ("❌ Failed to create app service plan: ") ++ e),
       tr ++ [.planCreate name (name ++ chars ("-plan")) location (chars ("Dynamic"))])
    | .ok _ =>
      match env.siteCreateRes name (name ++ chars ("-func")) location with
      | .error e =>
        (.ret (chars ("❌ Failed to create Function App: ") ++ e),
         tr ++ [.planCreate name (name ++ chars ("-plan")) location (chars ("Dynamic")),
                .siteCreate name (name ++ chars ("-func")) location])
      | .ok _ =>
        (.ret (chars ("✅ Function App ") ++ quoted (name ++ chars ("-func")) ++
               chars (" successfully created in ") ++ quoted location ++ chars (".")),
         tr ++ [.planCreate name (name ++ chars ("-plan")) location (chars ("Dynamic")),
                .siteCreate name (name ++ chars ("-func")) location])

/-- Embedding of `create_logic_app` (app.py lines 53-124): resource-group
create (outside the try), then the template deployment inside a try/except
that returns the exception text on failure. -/
def create_logic_app (env : Env) (name location : List Char) :
    Outcome × List RemoteCall :=
  match env.rgCreateRes name location with
  | .error e => (.exn e, [.rgCreate name location])
  | .ok _ =>
    match env.deployRes name (name ++ chars ("-logicapp-deployment")) location with
    | .error e =>
      (.ret (chars ("❌ Failed to deploy Logic App: ") ++ e),
       [.rgCreate name location,
        .deployCreate name (name ++ chars ("-logicapp-deployment")) location])
    | .ok _ =>
      (.ret (chars ("✅ Logic App ") ++ quoted name ++
             chars (" successfully deployed in ") ++ quoted location ++ chars (".")),
       [.rgCreate name location,
        .deployCreate name (name ++ chars ("-logicapp-deployment")) location])

/-- Embedding of the dispatch chain in `index` (app.py lines 299-312):
substring tests over the extracted resource type, in source order, with the
dead capital-W branch (line 309) included, and the unknown-kind fallback. -/
def dispatch (env : Env) (resource_type name location : List Char) :
    Outcome × List RemoteCall :=
  if listContains (chars ("resource group")) resource_type then
    create_resource_group env name location
  else if listContains (chars ("storage account")) resource_type then
    create_storage_account env name location
  else if listContains (chars ("function app")) resource_type then
    create_function_app env name location
  else if listContains (chars ("web app")) resource_type then
    create_web_app env name location
  else if listContains (chars ("logic app")) resource_type then
    create_logic_app env name location
  else if listContains (chars ("Web app")) resource_type then
    create_web_app env name location
  else
    (.ret (chars ("❌ Unknown resource type ") ++ quoted resource_type ++ chars (".")),
     [])

/-- The same dispatch chain with the unreachable capital-W branch removed;
used to state that web-app provisioning is reachable only through the
lower-case branch. -/
def dispatch_live (env : Env) (resource_type name location : List Char) :
    Outcome × List RemoteCall :=
  if listContains (chars ("resource group")) resource_type then
    create_resource_group env name location
  else if listContains (chars ("storage account")) resource_type then
    create_storage_account env name location
  else if listContains (chars ("function app")) resource_type then
    create_function_app env name location
  else if listContains (chars ("web app")) resource_type then
    create_web_app env name location
  else if listContains (chars ("logic app")) resource_type then
    create_logic_app env name location
  else
    (.ret (chars ("❌ Unknown resource type ") ++ quoted resource_type ++ chars (".")),
     [])

/-- Field extraction of `index` (app.py lines 293-297): the model output is
stripped and lower-cased, then each field is carved out with Python
`split(label)[1]` / `split(label)[0]` and stripped; a missing label raises
IndexError, modelled as `none`. -/
def extractFields (raw : List Char) :
    Option (List Char × List Char × List Char) :=
  let parsed := pyLower (pyStrip raw)
  match pyPart1 (chars ("resource_type:")) parsed with
  | none => none
  | some afterRt =>
    match pyPart1 (chars ("name:")) parsed with
    | none => none
    | some afterName =>
      match pyPart1 (chars ("location:")) parsed with
      | none => none
      | some afterLoc =>
        some (pyStrip (beforeSub (chars ("name:")) afterRt),
              pyStrip (beforeSub (chars ("location:")) afterName),
              pyStrip afterLoc)

/-- The POST path of `index` (app.py lines 290-315), from the extractor
output onward: parse the three fields, dispatch, and catch any exception as
an `❌ Error:` message. -/
def runIndex (env : Env) (raw : List Char) : Outcome × List RemoteCall :=
  match extractFields raw with
  | none => (.ret (chars ("❌ Error: list index out of range")), [])
  | some (rt, nm, loc) =>
    match dispatch env rt nm loc with
    | (.exn e, tr) => (.ret (chars ("❌ Error: ") ++ e), tr)
    | (.ret m, tr) => (.ret m, tr)

/-- Remote environment in which every availability check answers
"available" and every operation succeeds. -/
def envAllOk : Env where
  nameAvailable := fun _ => true
  rgCreateRes := fun _ _ => .ok ()
  storageCreateRes := fun _ _ _ => .ok ()
  planCreateRes := fun _ _ _ _ => .ok ()
  siteCreateRes := fun _ _ _ => .ok ()
  deployRes := fun _ _ _ => .ok ()

/-- Remote environment in which every availability check answers
"unavailable" and every operation succeeds. -/
def envUnavailOk : Env where
  nameAvailable := fun _ => false
  rgCreateRes := fun _ _ => .ok ()
  storageCreateRes := fun _ _ _ => .ok ()
  planCreateRes := fun _ _ _ _ => .ok ()
  siteCreateRes := fun _ _ _ => .ok ()
  deployRes := fun _ _ _ => .ok ()

/-- Remote environment in which the hosting-plan creation fails with a
fixed error text and everything else succeeds. -/
def envPlanFail : Env where
  nameAvailable := fun _ => true
  rgCreateRes := fun _ _ => .ok ()
  storageCreateRes := fun _ _ _ => .ok ()
  planCreateRes := fun _ _ _ _ => .error (chars ("quota"))
  siteCreateRes := fun _ _ _ => .ok ()
  deployRes := fun _ _ _ => .ok ()

/-- Modelled from the spec: the remote resource-group store behind Azure
`resource_groups.create_or_update`, which is not part of this repository
(only its call sites are). Spec section 4.3: "Idempotent create-or-update;
succeeds even if already exists with identical properties." The world maps
each existing group name to its location; creating an absent group records
it, re-creating with the identical location succeeds and changes nothing,
and a conflicting location is a remote error. -/
def World : Type := List (List Char × List Char)

/-- Modelled from the spec: one `create_or_update` call against a `World`. -/
def rgCreateOrUpdateW (w : World) (name location : List Char) :
    Except (List Char) Unit × World :=
  match List.lookup name w with
  | some loc0 =>
    if loc0 = location then (.ok (), w)
    else (.error (chars ("existing resource group has a different location")), w)
  | none => (.ok (), (name, location) :: w)

/-- Stateful reading of `create_resource_group` (app.py lines 23-25) over
the spec-modelled remote store, used for the idempotence property. -/
def create_resource_group_w (w : World) (name location : List Char) :
    Outcome × World :=
  match rgCreateOrUpdateW w name location with
  | (.ok _, w1) =>
    (.ret (chars ("✅ Resource group ") ++ quoted name ++
           chars (" created in ") ++ quoted location ++ chars (".")),
     w1)
  | (.error e, w1) => (.exn e, w1)

/-- Failure reasons of the async operation poller, from spec section 4.2. -/
inductive OpError where
  | remoteFailure (detail : List Char)
  | timeout
deriving DecidableEq

/-- Modelled from the spec: the wait loop of the async operation poller
(the Azure SDK `LROPoller.result()` used at every `poller.result()` call
site; the poller implementation is not part of this repository). Spec
section 4.2: repeatedly query the operation state at a bounded interval
until terminal or until the maximum total wait is exceeded; a terminal
failure state becomes `OperationError{RemoteFailure, detail}`, and
exhausting the maximum wait becomes `OperationError{Timeout}`. `getState i`
is the remote state observed by the i-th query and `fuel` the number of
queries the configured maximum total wait allows. -/
def pollLoop {σ α : Type} (getState : Nat → σ) (isTerminal isFailed : σ → Bool)
    (detail : σ → List Char) (extractRes : σ → α) :
    Nat → Nat → Except OpError α
  | 0, _ => .error .timeout
  | Nat.succ fuel, i =>
    if isTerminal (getState i) then
      if isFailed (getState i) then .error (.remoteFailure (detail (getState i)))
      else .ok (extractRes (getState i))
    else pollLoop getState isTerminal isFailed detail extractRes fuel (i + 1)

/-- Modelled from the spec: the poller's `await`, polling from the first
query with `maxPolls` total queries allowed. -/
def pollerAwait {σ α : Type} (getState : Nat → σ) (isTerminal isFailed : σ → Bool)
    (detail : σ → List Char) (extractRes : σ → α) (maxPolls : Nat) :
    Except OpError α :=
  pollLoop getState isTerminal isFailed detail extractRes maxPolls 0

/-- C1: the claim says that when the storage name-availability check
reports the name unavailable, the storage step fails and neither the
hosting-plan nor the function-app submission is ever issued. The code does
the opposite: with availability reported false (and the remote create then
succeeding), `create_function_app` submits the storage create anyway and
goes on to submit both the hosting plan and the function app, returning
success. -/
theorem c1_unavailable_funcapp_still_submits :
    create_function_app envUnavailOk (chars ("fnapp1")) (chars ("eastus")) =
      (Outcome.ret (chars ("✅ Function App ") ++
         quoted (chars ("fnapp1") ++ chars ("-func")) ++
         chars (" successfully created in ") ++ quoted (chars ("eastus")) ++ chars (".")),
       [RemoteCall.checkAvail (chars ("fnapp1")),
        RemoteCall.storageCreate (chars ("fnapp1")) (chars ("fnapp1")) (chars ("eastus")),
        RemoteCall.planCreate (chars ("fnapp1")) (chars ("fnapp1") ++ chars ("-plan"))
          (chars ("eastus")) (chars ("Dynamic")),
        RemoteCall.siteCreate (chars ("fnapp1")) (chars ("fnapp1") ++ chars ("-func"))
          (chars ("eastus"))]) ∧
    RemoteCall.planCreate (chars ("fnapp1")) (chars ("fnapp1") ++ chars ("-plan"))
        (chars ("eastus")) (chars ("Dynamic")) ∈
      (create_function_app envUnavailOk (chars ("fnapp1")) (chars ("eastus"))).2 ∧
    RemoteCall.siteCreate (chars ("fnapp1")) (chars ("fnapp1") ++ chars ("-func"))
        (chars ("eastus")) ∈
      (create_function_app envUnavailOk (chars ("fnapp1")) (chars ("eastus"))).2 := by
  decide

/-- C2: the claim says that with every check and operation succeeding, a
FunctionApp run issues exactly three create submissions, storage first. In
the code the availability test is inverted, so with the name available the
storage create is skipped: only the hosting-plan and function-app
submissions are issued (two mutating calls, no storage create), although
the success message does mention the `-func` name. -/
theorem c2_funcapp_skips_storage_when_available :
    create_function_app envAllOk (chars ("fnapp1")) (chars ("eastus")) =
      (Outcome.ret (chars ("✅ Function App ") ++
         quoted (chars ("fnapp1") ++ chars ("-func")) ++
         chars (" successfully created in ") ++ quoted (chars ("eastus")) ++ chars (".")),
       [RemoteCall.checkAvail (chars ("fnapp1")),
        RemoteCall.planCreate (chars ("fnapp1")) (chars ("fnapp1") ++ chars ("-plan"))
          (chars ("eastus")) (chars ("Dynamic")),
        RemoteCall.siteCreate (chars ("fnapp1")) (chars ("fnapp1") ++ chars ("-func"))
          (chars ("eastus"))]) ∧
    List.filter RemoteCall.isMutating
        (create_function_app envAllOk (chars ("fnapp1")) (chars ("eastus"))).2 =
      [RemoteCall.planCreate (chars ("fnapp1")) (chars ("fnapp1") ++ chars ("-plan"))
         (chars ("eastus")) (chars ("Dynamic")),
       RemoteCall.siteCreate (chars ("fnapp1")) (chars ("fnapp1") ++ chars ("-func"))
         (chars ("eastus"))] ∧
    (∀ rg acct loc,
      RemoteCall.storageCreate rg acct loc ∉
        (create_function_app envAllOk (chars ("fnapp1")) (chars ("eastus"))).2) ∧
    listContains (chars ("fnapp1-func"))
      (match (create_function_app envAllOk (chars ("fnapp1")) (chars ("eastus"))).1 with
       | Outcome.ret m => m
       | Outcome.exn m => m) = true := by
  have htr : (create_function_app envAllOk (chars ("fnapp1")) (chars ("eastus"))).2 =
      [RemoteCall.checkAvail (chars ("fnapp1")),
       RemoteCall.planCreate (chars ("fnapp1")) (chars ("fnapp1") ++ chars ("-plan"))
         (chars ("eastus")) (chars ("Dynamic")),
       RemoteCall.siteCreate (chars ("fnapp1")) (chars ("fnapp1") ++ chars ("-func"))
         (chars ("eastus"))] := by decide
  refine ⟨by decide, by decide, ?_, by decide⟩
  intro rg acct loc h
  rw [htr] at h
  simp at h

/-- Extractor output used for the empty-name scenario: the `name:` field is
present but blank. -/
def c4raw : List Char :=
  chars ("resource_type: resource group\nname:\nlocation: eastus")

/-- C4: the claim says an empty-after-trimming name makes normalization
fail with EmptyField and no remote call is attempted. The code has no such
check: on an extractor output whose name field is blank, the three fields
parse (name becomes the empty string) and the handler goes on to issue the
remote `create_or_update` with the empty name — one mutating remote call,
and a success message, instead of a normalization failure. -/
theorem c4_empty_name_still_calls_remote :
    extractFields c4raw = some (chars ("resource group"), [], chars ("eastus")) ∧
    runIndex envAllOk c4raw =
      (Outcome.ret (chars ("✅ Resource group ") ++ quoted [] ++
         chars (" created in ") ++ quoted (chars ("eastus")) ++ chars (".")),
       [RemoteCall.rgCreate [] (chars ("eastus"))]) ∧
    List.filter RemoteCall.isMutating (runIndex envAllOk c4raw).2 =
      [RemoteCall.rgCreate [] (chars ("eastus"))] := by
  refine ⟨by decide, by decide, by decide⟩

/-- The empty needle is contained in every string. -/
theorem listContains_nil_left (l : List Char) : listContains [] l = true := by
  cases l with
  | nil => rfl
  | cons c cs => simp [listContains, List.isPrefixOf]

/-- A string contains itself. -/
theorem listContains_self (l : List Char) : listContains l l = true := by
  cases l with
  | nil => rfl
  | cons c cs => simp [listContains]

/-- Containment in the right part of a concatenation. -/
theorem listContains_append_right (nd xs ys : List Char)
    (h : listContains nd ys = true) : listContains nd (xs ++ ys) = true := by
  induction xs with
  | nil => simpa using h
  | cons x xs ih => simp [listContains, ih]

/-- Containment in the left part of a concatenation. -/
theorem listContains_append_left (nd xs ys : List Char)
    (h : listContains nd xs = true) : listContains nd (xs ++ ys) = true := by
  induction xs with
  | nil =>
    have : nd = [] := by
      cases nd with
      | nil => rfl
      | cons a as => simp [listContains] at h
    subst this
    exact listContains_nil_left ys
  | cons x xs ih =>
    simp only [listContains, Bool.or_eq_true, List.isPrefixOf_iff_prefix] at h ⊢
    rcases h with h | h
    · exact Or.inl (h.trans (List.prefix_append (x :: xs) ys))
    · exact Or.inr (ih h)

/-- C3: a StorageAccount run whose name-availability check reports the name
taken returns the descriptive failure message (a `❌` result mentioning that
the name is not available) and issues no mutating remote call at all: its
whole trace is the read-only availability check. -/
theorem c3_storage_name_taken_fails_fast (env : Env) (name location : List Char)
    (h : env.nameAvailable name = false) :
    create_storage_account env name location =
      (Outcome.ret (chars ("❌ Storage account name ") ++ quoted name ++
         chars (" is not available.")),
       [RemoteCall.checkAvail name]) ∧
    (chars ("❌")).isPrefixOf
      (chars ("❌ Storage account name ") ++ quoted name ++
       chars (" is not available.")) = true ∧
    listContains (chars (" is not available."))
      (chars ("❌ Storage account name ") ++ quoted name ++
       chars (" is not available.")) = true ∧
    List.filter RemoteCall.isMutating (create_storage_account env name location).2 = [] := by
  refine ⟨?_, ?_, ?_, ?_⟩
  · simp [create_storage_account, h]
  · rfl
  · exact listContains_append_right _ _ _ (listContains_self _)
  · simp [create_storage_account, h, RemoteCall.isMutating]

/-- Witness for C3 at the concrete scenario of spec section 8. -/
theorem c3_witness :
    create_storage_account envUnavailOk (chars ("takenname")) (chars ("eastus")) =
      (Outcome.ret (chars ("❌ Storage account name ") ++ quoted (chars ("takenname")) ++
         chars (" is not available.")),
       [RemoteCall.checkAvail (chars ("takenname"))]) :=
  (c3_storage_name_taken_fails_fast envUnavailOk (chars ("takenname"))
    (chars ("eastus")) rfl).1

/-- A string is contained in itself followed by anything. -/
theorem listContains_append_self (l t : List Char) : listContains l (l ++ t) = true := by
  cases l with
  | nil => exact listContains_nil_left t
  | cons c cs =>
    simp only [List.cons_append, listContains, Bool.or_eq_true, List.isPrefixOf_iff_prefix]
    exact Or.inl (List.prefix_append (c :: cs) t)

/-- A string is contained in its quoted form. -/
theorem listContains_quoted (l : List Char) : listContains l (quoted l) = true := by
  simp only [quoted, listContains, Bool.or_eq_true]
  exact Or.inr (listContains_append_self l [aposC])

/-- C5: when the extracted resource type matches none of the recognized
phrases of the dispatch chain, `index` produces the `❌ Unknown resource
type` failure message naming that type, and contacts no remote service:
the trace is empty. -/
theorem c5_unknown_kind_no_remote (env : Env) (rt name location : List Char)
    (h1 : listContains (chars ("resource group")) rt = false)
    (h2 : listContains (chars ("storage account")) rt = false)
    (h3 : listContains (chars ("function app")) rt = false)
    (h4 : listContains (chars ("web app")) rt = false)
    (h5 : listContains (chars ("logic app")) rt = false)
    (h6 : listContains (chars ("Web app")) rt = false) :
    dispatch env rt name location =
      (Outcome.ret (chars ("❌ Unknown resource type ") ++ quoted rt ++ chars (".")),
       []) ∧
    (chars ("❌")).isPrefixOf
      (chars ("❌ Unknown resource type ") ++ quoted rt ++ chars (".")) = true ∧
    listContains rt
      (chars ("❌ Unknown resource type ") ++ quoted rt ++ chars (".")) = true := by
  refine ⟨?_, rfl, ?_⟩
  · simp [dispatch, h1, h2, h3, h4, h5, h6]
  · exact listContains_append_left _ _ _
      (listContains_append_right _ _ _ (listContains_quoted rt))

/-- Witness for C5 at a concrete unmatched phrase. -/
theorem c5_witness :
    dispatch envAllOk (chars ("virtual machine")) (chars ("vm1")) (chars ("eastus")) =
      (Outcome.ret (chars ("❌ Unknown resource type ") ++
         quoted (chars ("virtual machine")) ++ chars (".")),
       []) :=
  (c5_unknown_kind_no_remote envAllOk (chars ("virtual machine")) (chars ("vm1"))
    (chars ("eastus")) (by decide) (by decide) (by decide) (by decide) (by decide)
    (by decide)).1

/-- C6: in a WebApp run, if the hosting-plan step fails the function
returns a failure message naming the App Service Plan step and the web-app
submission is never issued; and whenever the web-app submission does appear
in a trace, the hosting-plan submission precedes it in the trace and the
plan operation succeeded (strict sequencing). -/
theorem c6_webapp_plan_failure_aborts (env : Env) (name location e : List Char)
    (hrg : env.rgCreateRes name location = Except.ok ())
    (hplan : env.planCreateRes name (name ++ chars ("-plan")) location
      (chars ("Basic")) = Except.error e) :
    create_web_app env name location =
      (Outcome.ret (chars ("❌ Failed to create App Service Plan: ") ++ e),
       [RemoteCall.rgCreate name location,
        RemoteCall.planCreate name (name ++ chars ("-plan")) location (chars ("Basic"))]) ∧
    (∀ s, RemoteCall.siteCreate name s location ∉ (create_web_app env name location).2) ∧
    (∀ env2 : Env,
      RemoteCall.siteCreate name (name ++ chars ("-web")) location ∈
          (create_web_app env2 name location).2 →
      (create_web_app env2 name location).2 =
        [RemoteCall.rgCreate name location,
         RemoteCall.planCreate name (name ++ chars ("-plan")) location (chars ("Basic")),
         RemoteCall.siteCreate name (name ++ chars ("-web")) location] ∧
      env2.planCreateRes name (name ++ chars ("-plan")) location (chars ("Basic")) =
        Except.ok ()) := by
  have hmain : create_web_app env name location =
      (Outcome.ret (chars ("❌ Failed to create App Service Plan: ") ++ e),
       [RemoteCall.rgCreate name location,
        RemoteCall.planCreate name (name ++ chars ("-plan")) location (chars ("Basic"))]) := by
    simp [create_web_app, hrg, hplan]
  refine ⟨hmain, ?_, ?_⟩
  · intro s hmem
    rw [hmain] at hmem
    simp at hmem
  · intro env2 hmem
    cases h1 : env2.rgCreateRes name location with
    | error e1 => simp [create_web_app, h1] at hmem
    | ok u1 =>
      cases h2 : env2.planCreateRes name (name ++ chars ("-plan")) location
          (chars ("Basic")) with
      | error e2 => simp [create_web_app, h1, h2] at hmem
      | ok u2 =>
        cases u2
        cases h3 : env2.siteCreateRes name (name ++ chars ("-web")) location with
        | error e3 => exact ⟨by simp [create_web_app, h1, h2, h3], rfl⟩
        | ok u3 => exact ⟨by simp [create_web_app, h1, h2, h3], rfl⟩

/-- Witness for C6 at a concrete plan-failing environment. -/
theorem c6_witness :
    create_web_app envPlanFail (chars ("app1")) (chars ("eastus")) =
      (Outcome.ret (chars ("❌ Failed to create App Service Plan: ") ++ chars ("quota")),
       [RemoteCall.rgCreate (chars ("app1")) (chars ("eastus")),
        RemoteCall.planCreate (chars ("app1")) (chars ("app1") ++ chars ("-plan"))
          (chars ("eastus")) (chars ("Basic"))]) :=
  (c6_webapp_plan_failure_aborts envPlanFail (chars ("app1")) (chars ("eastus"))
    (chars ("quota")) rfl rfl).1

/-- C7: provisioning the same ResourceGroup twice with identical name and
location succeeds both times over the spec-modelled idempotent remote
store: the first call records the group and returns the success message,
and the second call returns the same success message with the store
unchanged (no error on the re-create). -/
theorem c7_resource_group_idempotent (w : World) (name location : List Char)
    (h : List.lookup name w = none) :
    create_resource_group_w w name location =
      (Outcome.ret (chars ("✅ Resource group ") ++ quoted name ++
         chars (" created in ") ++ quoted location ++ chars (".")),
       (name, location) :: w) ∧
    create_resource_group_w ((name, location) :: w) name location =
      (Outcome.ret (chars ("✅ Resource group ") ++ quoted name ++
         chars (" created in ") ++ quoted location ++ chars (".")),
       (name, location) :: w) := by
  constructor
  · simp [create_resource_group_w, rgCreateOrUpdateW, h]
  · simp [create_resource_group_w, rgCreateOrUpdateW, List.lookup]

/-- Witness for C7 at the concrete scenario of spec section 8. -/
theorem c7_witness :
    create_resource_group_w ([] : World) (chars ("rg-test")) (chars ("westus")) =
      (Outcome.ret (chars ("✅ Resource group ") ++ quoted (chars ("rg-test")) ++
         chars (" created in ") ++ quoted (chars ("westus")) ++ chars (".")),
       [(chars ("rg-test"), chars ("westus"))]) ∧
    create_resource_group_w [(chars ("rg-test"), chars ("westus"))]
        (chars ("rg-test")) (chars ("westus")) =
      (Outcome.ret (chars ("✅ Resource group ") ++ quoted (chars ("rg-test")) ++
         chars (" created in ") ++ quoted (chars ("westus")) ++ chars (".")),
       [(chars ("rg-test"), chars ("westus"))]) :=
  c7_resource_group_idempotent [] (chars ("rg-test")) (chars ("westus")) rfl

/-- C8: over the spec-modelled poller, a remote status source that never
reports a terminal state makes `await` return the Timeout failure once the
configured maximum number of queries is spent — it does not block forever
(the loop is structurally bounded by its fuel). -/
theorem c8_poller_timeout {σ α : Type} (getState : Nat → σ)
    (isTerminal isFailed : σ → Bool) (detail : σ → List Char) (extractRes : σ → α)
    (maxPolls : Nat) (h : ∀ i, isTerminal (getState i) = false) :
    pollerAwait getState isTerminal isFailed detail extractRes maxPolls =
      Except.error OpError.timeout := by
  have main : ∀ fuel i,
      pollLoop getState isTerminal isFailed detail extractRes fuel i =
        Except.error OpError.timeout := by
    intro fuel
    induction fuel with
    | zero => intro i; rfl
    | succ n ih => intro i; simp [pollLoop, h, ih]
  exact main maxPolls 0

/-- Witness for C8 at a concrete never-terminal status source. -/
theorem c8_witness :
    pollerAwait (fun _ => (0 : Nat)) (fun _ => false) (fun _ => false)
      (fun _ => []) (fun _ => (0 : Nat)) 5 = Except.error OpError.timeout :=
  c8_poller_timeout (fun _ => (0 : Nat)) (fun _ => false) (fun _ => false)
    (fun _ => []) (fun _ => (0 : Nat)) 5 (fun _ => rfl)

/-- Every call of a trace either names no resource group or targets exactly
the group `name`. -/
def targetsOnly (name : List Char) (tr : List RemoteCall) : Prop :=
  ∀ c ∈ tr, ∀ g, c.rgTarget = some g → g = name

/-- A trace whose calls all have target `none` or `some name` satisfies
`targetsOnly name`. -/
theorem targetsOnly_fixed (name : List Char) (tr : List RemoteCall)
    (h : ∀ c ∈ tr, c.rgTarget = none ∨ c.rgTarget = some name) :
    targetsOnly name tr := by
  intro c hc g hg
  rcases h c hc with h0 | h0 <;> rw [h0] at hg
  · simp at hg
  · exact (Option.some.inj hg).symm

/-- C9: in every provisioning workflow of the program, every remote
mutating call targets a resource group whose name is exactly the intent's
name — the resource name doubles as the containing resource-group name in
all five provisioners, whatever the remote outcomes are. -/
theorem c9_rg_name_invariant (env : Env) (name location : List Char) :
    targetsOnly name (create_resource_group env name location).2 ∧
    targetsOnly name (create_storage_account env name location).2 ∧
    targetsOnly name (create_web_app env name location).2 ∧
    targetsOnly name (create_function_app env name location).2 ∧
    targetsOnly name (create_logic_app env name location).2 := by
  refine ⟨?_, ?_, ?_, ?_, ?_⟩
  · apply targetsOnly_fixed
    cases hR : env.rgCreateRes name location <;>
      simp [create_resource_group, hR, RemoteCall.rgTarget]
  · apply targetsOnly_fixed
    by_cases hA : env.nameAvailable name
    · cases hR : env.rgCreateRes name location with
      | error e1 => simp [create_storage_account, hA, hR, RemoteCall.rgTarget]
      | ok u1 =>
        cases hS : env.storageCreateRes name name location <;>
          simp [create_storage_account, hA, hR, hS, RemoteCall.rgTarget]
    · simp [create_storage_account, hA, RemoteCall.rgTarget]
  · apply targetsOnly_fixed
    cases hR : env.rgCreateRes name location with
    | error e1 => simp [create_web_app, hR, RemoteCall.rgTarget]
    | ok u1 =>
      cases hP : env.planCreateRes name (name ++ chars ("-plan")) location
          (chars ("Basic")) with
      | error e2 => simp [create_web_app, hR, hP, RemoteCall.rgTarget]
      | ok u2 =>
        cases hS : env.siteCreateRes name (name ++ chars ("-web")) location <;>
          simp [create_web_app, hR, hP, hS, RemoteCall.rgTarget]
  · apply targetsOnly_fixed
    by_cases hA : env.nameAvailable name
    · cases hP : env.planCreateRes name (name ++ chars ("-plan")) location
          (chars ("Dynamic")) with
      | error e2 => simp [create_function_app, hA, hP, RemoteCall.rgTarget]
      | ok u2 =>
        cases hF : env.siteCreateRes name (name ++ chars ("-func")) location <;>
          simp [create_function_app, hA, hP, hF, RemoteCall.rgTarget]
    · cases hS : env.storageCreateRes name name location with
      | error e1 => simp [create_function_app, hA, hS, Except.map, RemoteCall.rgTarget]
      | ok u1 =>
        cases hP : env.planCreateRes name (name ++ chars ("-plan")) location
            (chars ("Dynamic")) with
        | error e2 => simp [create_function_app, hA, hS, hP, Except.map, RemoteCall.rgTarget]
        | ok u2 =>
          cases hF : env.siteCreateRes name (name ++ chars ("-func")) location <;>
            simp [create_function_app, hA, hS, hP, hF, Except.map, RemoteCall.rgTarget]
  · apply targetsOnly_fixed
    cases hR : env.rgCreateRes name location with
    | error e1 => simp [create_logic_app, hR, RemoteCall.rgTarget]
    | ok u1 =>
      cases hD : env.deployRes name (name ++ chars ("-logicapp-deployment")) location <;>
        simp [create_logic_app, hR, hD, RemoteCall.rgTarget]

/-- Witness for C9: a concrete call of a concrete trace, with the
membership and target hypotheses discharged. -/
theorem c9_witness :
    RemoteCall.rgCreate (chars ("rg1")) (chars ("westus")) ∈
      (create_resource_group envAllOk (chars ("rg1")) (chars ("westus"))).2 ∧
    chars ("rg1") = chars ("rg1") :=
  ⟨by decide,
   (c9_rg_name_invariant envAllOk (chars ("rg1")) (chars ("westus"))).1
     (RemoteCall.rgCreate (chars ("rg1")) (chars ("westus"))) (by decide)
     (chars ("rg1")) rfl⟩

/-- ASCII lower-casing never produces the capital letter W. -/
theorem charLower_ne_W (c : Char) : charLower c ≠ ('W' : Char) := by
  unfold charLower
  split
  case isTrue h =>
    intro hEq
    obtain ⟨h1, h2⟩ := h
    generalize hg : c.toNat = n at h1 h2 hEq
    interval_cases n <;> exact absurd hEq (by decide)
  case isFalse h =>
    intro hEq
    subst hEq
    exact h (by decide)

/-- Characters of `beforeSub sep l` come from `l`. -/
theorem mem_beforeSub {sep l : List Char} {x : Char}
    (h : x ∈ beforeSub sep l) : x ∈ l := by
  induction l with
  | nil => simp [beforeSub] at h
  | cons c cs ih =>
    simp only [beforeSub] at h
    split at h
    · simp at h
    · rcases List.mem_cons.mp h with rfl | h2
      · exact List.mem_cons_self x cs
      · exact List.mem_cons_of_mem _ (ih h2)

/-- Characters of the remainder found by `findSub` come from `l`. -/
theorem mem_findSub {sep l r : List Char} {x : Char}
    (h : findSub sep l = some r) (hx : x ∈ r) : x ∈ l := by
  induction l with
  | nil =>
    simp only [findSub] at h
    split at h
    · cases h; simp at hx
    · cases h
  | cons c cs ih =>
    simp only [findSub] at h
    split at h
    · cases h
      exact List.drop_subset _ _ hx
    · exact List.mem_cons_of_mem _ (ih h)

/-- Characters of the stripped string come from the original. -/
theorem mem_pyStrip {l : List Char} {x : Char} (h : x ∈ pyStrip l) : x ∈ l := by
  unfold pyStrip at h
  rw [List.mem_reverse] at h
  have h2 := (List.dropWhile_sublist isPySpace).subset h
  rw [List.mem_reverse] at h2
  exact (List.dropWhile_sublist isPySpace).subset h2

/-- Every character of the lower-cased string is a `charLower` image. -/
theorem mem_pyLower {l : List Char} {x : Char} (h : x ∈ pyLower l) :
    ∃ c, x = charLower c := by
  unfold pyLower at h
  rcases List.mem_map.mp h with ⟨c, _, hc⟩
  exact ⟨c, hc.symm⟩

/-- A needle whose head character is absent from the haystack is not
contained in it. -/
theorem listContains_head_not_mem {c : Char} {tl l : List Char} (h : c ∉ l) :
    listContains (c :: tl) l = false := by
  induction l with
  | nil => rfl
  | cons y ys ih =>
    have hy : (c == y) = false :=
      beq_eq_false_iff_ne.mpr (fun hEq => h (hEq ▸ List.mem_cons_self y ys))
    have hys : c ∉ ys := fun hm => h (List.mem_cons_of_mem _ hm)
    simp [listContains, List.isPrefixOf, hy, ih hys]

/-- C10: whenever field extraction succeeds, the extracted resource type —
carved out of the lower-cased model output — cannot contain the phrase
`Web app` with a capital W, so the dispatch branch testing that phrase is
never taken: the full dispatch chain agrees with the chain with that
branch deleted, and web-app provisioning is reachable only through the
lower-case `web app` branch. -/
theorem c10_dead_branch (env : Env) (raw rt nm loc : List Char)
    (h : extractFields raw = some (rt, nm, loc)) :
    listContains (chars ("Web app")) rt = false ∧
    dispatch env rt nm loc = dispatch_live env rt nm loc := by
  have hW : ('W' : Char) ∉ rt := by
    intro hmem
    simp only [extractFields, pyPart1] at h
    cases h1 : findSub (chars ("resource_type:")) (pyLower (pyStrip raw)) with
    | none => rw [h1] at h; simp at h
    | some r1 =>
      rw [h1] at h
      cases h2 : findSub (chars ("name:")) (pyLower (pyStrip raw)) with
      | none => rw [h2] at h; simp at h
      | some r2 =>
        rw [h2] at h
        cases h3 : findSub (chars ("location:")) (pyLower (pyStrip raw)) with
        | none => rw [h3] at h; simp at h
        | some r3 =>
          rw [h3] at h
          simp only [Option.map_some', Option.some.injEq, Prod.mk.injEq] at h
          obtain ⟨hrt, hnm2, hloc2⟩ := h
          rw [← hrt] at hmem
          have s1 := mem_pyStrip hmem
          have s2 := mem_beforeSub s1
          have s3 := mem_beforeSub s2
          have s4 := mem_findSub h1 s3
          rcases mem_pyLower s4 with ⟨c, hc⟩
          exact charLower_ne_W c hc.symm
  have hcontains : listContains (chars ("Web app")) rt = false := by
    have hsplit : chars ("Web app") = ('W' : Char) :: chars ("eb app") := by decide
    rw [hsplit]
    exact listContains_head_not_mem hW
  refine ⟨hcontains, ?_⟩
  unfold dispatch dispatch_live
  rw [hcontains]
  simp

/-- Witness for C10 at a concrete extractor output asking for a web app. -/
theorem c10_witness :
    listContains (chars ("Web app")) (chars ("web app")) = false ∧
    dispatch envAllOk (chars ("web app")) (chars ("x")) (chars ("y")) =
      dispatch_live envAllOk (chars ("web app")) (chars ("x")) (chars ("y")) :=
  c10_dead_branch envAllOk
    (chars ("resource_type: web app\nname: x\nlocation: y"))
    (chars ("web app")) (chars ("x")) (chars ("y")) (by decide)
